import Mathlib

/-!
Verification development for the jobsaf-tracker scraper (`src/scraper.py`).

Python strings are modelled as `List Char` (`PyStr`); Python dicts as
insertion-ordered association lists; BeautifulSoup documents as a tree of
element/text nodes.  Each Lean definition carries a comment naming the
Python function it translates.
-/

set_option autoImplicit false
set_option linter.unusedVariables false

namespace JobsAf

/-- Python `str` modelled as a list of characters. -/
abbrev PyStr := List Char

/-- Conversion from a Lean string literal to the `PyStr` model. -/
def pstr (s : String) : PyStr := s.data

/-- Python whitespace characters recognised by `str.strip` and `\s` (the ones
occurring in this development). -/
def isPySpace (c : Char) : Bool :=
  c = ' ' || c = '\t' || c = '\n' || c = '\r' || c = '\x0b' || c = '\x0c'

/-- Python `str.strip()`. -/
def pyStrip (s : PyStr) : PyStr :=
  ((s.dropWhile isPySpace).reverse.dropWhile isPySpace).reverse

/-- Python `str.lower()` (ASCII, which is all the scraper compares). -/
def lowerStr (s : PyStr) : PyStr := s.map Char.toLower

/-- Python `str.lstrip("/")`. -/
def lstripSlash (s : PyStr) : PyStr := s.dropWhile (· = '/')

/-- Python `str.rstrip("/")`. -/
def rstripSlash (s : PyStr) : PyStr := (s.reverse.dropWhile (· = '/')).reverse

/-- Python `needle in haystack` (substring containment). -/
def containsSub (haystack needle : PyStr) : Bool :=
  needle.isPrefixOf haystack ||
    match haystack with
    | [] => false
    | _ :: t => containsSub t needle

/-- Python `str.startswith`. -/
def pyStartswith (s p : PyStr) : Bool := p.isPrefixOf s

/-- Python `str.title()` for ASCII text: the first alphabetic character of
every maximal alphabetic run is upper-cased, the rest lower-cased. -/
def pyTitleGo : Bool → PyStr → PyStr
  | _, [] => []
  | prevAlpha, c :: rest =>
      (if c.isAlpha then (if prevAlpha then c.toLower else c.toUpper) else c) ::
        pyTitleGo c.isAlpha rest

/-- Python `str.title()`. -/
def pyTitle (s : PyStr) : PyStr := pyTitleGo false s

/-- Python `str.splitlines()` restricted to `'\n'` separators (the only line
separator produced by the scraper's text flattening). -/
def pySplitlines (s : PyStr) : List PyStr :=
  s.foldr
    (fun c acc =>
      if c = '\n' then [] :: acc
      else
        match acc with
        | [] => [[c]]
        | l :: ls => (c :: l) :: ls)
    []

/-- `BASE = "https://jobs.af"` from `scraper.py`. -/
def BASE : PyStr := pstr "https://jobs.af"

/-- `normalize_url` from `scraper.py`:
if the input starts with `/` prepend `BASE`; if it already starts with
`http://` or `https://` return it unchanged; otherwise join `BASE` and the
input with a single `/`. -/
def normalize_url (u : PyStr) : PyStr :=
  if pyStartswith u (pstr "/") then BASE ++ u
  else if pyStartswith u (pstr "http://") || pyStartswith u (pstr "https://") then u
  else (rstripSlash BASE ++ pstr "/") ++ lstripSlash u

/-! ### Python dict model

A Python `dict` keeping insertion order is modelled as an association list
without duplicate keys.  `dictSet` is `d[k] = v` (update in place if the key
exists, else append); `dictSetdefault` is `d.setdefault(k, v)`. -/

/-- Python `d[k] = v`: replace the value at the first matching key, keeping
its position; append at the end when the key is new. -/
def dictSet : List (PyStr × PyStr) → PyStr → PyStr → List (PyStr × PyStr)
  | [], k, v => [(k, v)]
  | (k', v') :: d, k, v =>
      if k' = k then (k', v) :: d else (k', v') :: dictSet d k v

/-- Python `d.setdefault(k, v)`: leave the dict unchanged when the key
exists, else append the pair. -/
def dictSetdefault : List (PyStr × PyStr) → PyStr → PyStr → List (PyStr × PyStr)
  | [], k, v => [(k, v)]
  | (k', v') :: d, k, v =>
      if k' = k then (k', v') :: d else (k', v') :: dictSetdefault d k v

/-- First value bound to `k` (Python `d.get(k)` for duplicate-free dicts,
first-occurrence lookup on write lists). -/
def lookupKV (k : PyStr) : List (PyStr × PyStr) → Option PyStr
  | [] => none
  | (k', v) :: d => if k' = k then some v else lookupKV k d

/-- Value of the last write of `k` in a write list. -/
def lastKV (k : PyStr) (ws : List (PyStr × PyStr)) : Option PyStr :=
  lookupKV k ws.reverse

/-- Replay a write list with Python dict assignment (`d[k] = v`). -/
def runAssign (ws : List (PyStr × PyStr)) (d : List (PyStr × PyStr)) :
    List (PyStr × PyStr) :=
  ws.foldl (fun d e => dictSet d e.1 e.2) d

/-- Replay a write list with `d.setdefault(k, v)`. -/
def runSetdefault (ws : List (PyStr × PyStr)) (d : List (PyStr × PyStr)) :
    List (PyStr × PyStr) :=
  ws.foldl (fun d e => dictSetdefault d e.1 e.2) d

/-- `Option` alternative with the first argument preferred. -/
def optOr {α : Type} : Option α → Option α → Option α
  | some a, _ => some a
  | none, b => b

/-! ### BeautifulSoup document model

A parsed HTML document is a forest of nodes; an element node carries its tag
name, attribute list and children.  `BeautifulSoup`'s document order is the
preorder traversal. -/

/-- One DOM node: an element (tag, attributes, children) or a text node. -/
inductive HNode where
  | elem (tag : PyStr) (attrs : List (PyStr × PyStr)) (children : List HNode)
  | htext (s : PyStr)

/-- A parsed document (`soup`): its list of top-level nodes. -/
abbrev Soup := List HNode

/-- Tag of a node (text nodes have no tag). -/
def HNode.tagOf : HNode → PyStr
  | .elem t _ _ => t
  | .htext _ => []

/-- Whether a node is an element (a bs4 `Tag`). -/
def HNode.isElem : HNode → Bool
  | .elem _ _ _ => true
  | .htext _ => false

/-- Attribute lookup, bs4 `el.get(name)`. -/
def HNode.attr (n : HNode) (name : PyStr) : Option PyStr :=
  match n with
  | .elem _ attrs _ => lookupKV name attrs
  | .htext _ => none

mutual
/-- All descendant text-node contents of a node, in document order
(the strings `get_text` joins). -/
def nodeTexts : HNode → List PyStr
  | .htext s => [s]
  | .elem _ _ cs => forestTexts cs
def forestTexts : List HNode → List PyStr
  | [] => []
  | n :: ns => nodeTexts n ++ forestTexts ns
end

/-- bs4 `get_text(sep, strip=True)`: strip every text segment, drop the ones
that become empty, join the rest with `sep`. -/
def getTextSep (sep : PyStr) (segs : List PyStr) : PyStr :=
  List.intercalate sep ((segs.map pyStrip).filter (· ≠ []))

/-- `el.get_text(sep, strip=True)` on one node. -/
def HNode.getText (sep : PyStr) (n : HNode) : PyStr :=
  getTextSep sep (nodeTexts n)

/-- `soup.get_text(sep, strip=True)` on the whole document. -/
def soupText (sep : PyStr) (soup : Soup) : PyStr :=
  getTextSep sep (forestTexts soup)

mutual
/-- Contribution of one node to the preorder element/sibling listing: the
node itself (when it is an element) paired with its following siblings,
then its descendants. -/
def nodeElems : HNode → List HNode → List (HNode × List HNode)
  | .elem t a cs, following => (HNode.elem t a cs, following) :: forestElems cs
  | .htext _, _ => []
/-- Preorder list of all element nodes of a forest, each paired with the list
of its following siblings (the information `find_next_sibling` needs). -/
def forestElems : List HNode → List (HNode × List HNode)
  | [] => []
  | n :: ns => nodeElems n ns ++ forestElems ns
end

/-- Preorder element/sibling listing of a document. -/
def elemsWithFollowing (forest : List HNode) : List (HNode × List HNode) :=
  forestElems forest

/-- Preorder list of all element nodes (bs4 `find_all(True)` order). -/
def allElems (forest : List HNode) : List HNode :=
  (elemsWithFollowing forest).map Prod.fst

/-- bs4 `el.find_next_sibling()`: the first following sibling that is a
`Tag` (text siblings are skipped). -/
def nextSiblingElem (following : List HNode) : Option HNode :=
  following.find? HNode.isElem

/-- bs4 `el.find_next_sibling(name)`: the first following sibling `Tag`
whose name matches. -/
def nextSiblingTag (name : PyStr) (following : List HNode) : Option HNode :=
  following.find? (fun n => n.isElem && n.tagOf = name)

mutual
/-- `tr` elements with a `table` ancestor contributed by one node, in
document order; the flag records whether an enclosing `table` was seen. -/
def nodeTrs : Bool → HNode → List HNode
  | insideTable, .elem t a cs =>
      (if t = pstr "tr" && insideTable then [HNode.elem t a cs] else []) ++
        forestTrs (insideTable || t = pstr "table") cs
  | _, .htext _ => []
/-- The `tr` elements lying under a `table` ancestor, in document order
(CSS selector `table tr`). -/
def forestTrs : Bool → List HNode → List HNode
  | _, [] => []
  | b, n :: ns => nodeTrs b n ++ forestTrs b ns
end

/-- CSS `table tr` over a whole document. -/
def trsUnder (b : Bool) (forest : List HNode) : List HNode :=
  forestTrs b forest

/-- First element with the given tag, in document order (bs4 `soup.find`). -/
def firstTag (name : PyStr) (soup : Soup) : Option HNode :=
  (allElems soup).find? (fun n => n.tagOf = name)

/-! ### `extract_key_value_details`

The function runs four passes over one dict.  Each pass's per-item writes
depend only on the markup (never on the dict built so far), so the function
is translated as: compute each pass's ordered write list, then replay pass 1
with `d[k] = v` and passes 2-4 with `d.setdefault(k, v)` — exactly the dict
operations the source uses. -/

/-- The fixed label vocabulary `known_labels` from `extract_key_value_details`. -/
def knownLabels : List PyStr :=
  [pstr "post date", pstr "closing date", pstr "reference",
   pstr "number of vacancies", pstr "salary range", pstr "years of experience",
   pstr "probation period", pstr "contract type", pstr "contract duration",
   pstr "minimum education", pstr "location", pstr "company",
   pstr "functional area", pstr "provinces", pstr "countries",
   pstr "contract extensible"]

/-- The tag filter of pass 1's `soup.find_all(['div','span','p','dt','th','td'])`. -/
def m1Tags : List PyStr :=
  [pstr "div", pstr "span", pstr "p", pstr "dt", pstr "th", pstr "td"]

/-- Pass 1 (label element, next-sibling value): for every element from the
tag filter whose own flattened text is exactly a known label, pair the
title-cased label with the next sibling element's text, provided that value
is non-empty, shorter than 200 characters and not itself a known label.
These writes are replayed with `details[key] = val`. -/
def method1Writes (soup : Soup) : List (PyStr × PyStr) :=
  (elemsWithFollowing soup).filterMap fun p =>
    if m1Tags.contains p.1.tagOf then
      let text := lowerStr (p.1.getText (pstr " "))
      if knownLabels.contains text then
        match nextSiblingElem p.2 with
        | some nxt =>
            let val := nxt.getText (pstr " ")
            if val ≠ [] ∧ val.length < 200 ∧ ¬ knownLabels.contains (lowerStr val) then
              some (pyTitle text, val)
            else none
        | none => none
      else none
    else none

/-- Pass 2 (`dt`/`dd` pairs): for every `dt` with non-empty text and a
following `dd` sibling with non-empty text, write the pair with `setdefault`. -/
def method2Writes (soup : Soup) : List (PyStr × PyStr) :=
  (elemsWithFollowing soup).filterMap fun p =>
    if p.1.tagOf = pstr "dt" then
      let key := p.1.getText (pstr " ")
      match nextSiblingTag (pstr "dd") p.2 with
      | some dd =>
          if key ≠ [] then
            let val := dd.getText (pstr " ")
            if val ≠ [] then some (key, val) else none
          else none
      | none => none
    else none

/-- Pass 3 (table rows): for every `tr` under a `table`, take its first two
`th`/`td` descendant cells as key and value (key length at most 80),
written with `setdefault`. -/
def method3Writes (soup : Soup) : List (PyStr × PyStr) :=
  (trsUnder false soup).filterMap fun tr =>
    match tr with
    | .elem _ _ cs =>
        match (allElems cs).filter (fun c => c.tagOf = pstr "th" || c.tagOf = pstr "td") with
        | c0 :: c1 :: _ =>
            let k := c0.getText (pstr " ")
            let v := c1.getText (pstr " ")
            if k ≠ [] ∧ v ≠ [] ∧ k.length ≤ 80 then some (k, v) else none
        | _ => none
    | .htext _ => none

/-- Pass 4, one line of the flattened text: if the stripped, lower-cased
line is exactly a known label, the value is the first of the next two lines
that strips to something non-empty and is not itself a label, keyed by the
title-cased stripped line; otherwise, a line containing a colon (raw length
between 3 and 240) is split at the first colon into a key (stripped length
between 2 and 80) and a non-empty stripped value.  All pass-4 writes use
`setdefault`. -/
def method4LineWrite (lines : List PyStr) (i : Nat) : Option (PyStr × PyStr) :=
  match lines.get? i with
  | none => none
  | some line =>
      let ll := lowerStr (pyStrip line)
      if knownLabels.contains ll then
        match (((lines.drop (i + 1)).take 2).map pyStrip).find?
            (fun v => v ≠ [] && ¬ knownLabels.contains (lowerStr v)) with
        | some v => some (pyTitle (pyStrip line), v)
        | none => none
      else if line.contains ':' && 3 ≤ line.length && line.length ≤ 240 then
        let k := pyStrip (line.takeWhile (· ≠ ':'))
        let v := pyStrip ((line.dropWhile (· ≠ ':')).drop 1)
        if 2 ≤ k.length ∧ k.length ≤ 80 ∧ v ≠ [] then some (k, v) else none
      else none

/-- Pass 4 over all lines of `soup.get_text("\n", strip=True).splitlines()`. -/
def method4Writes (lines : List PyStr) : List (PyStr × PyStr) :=
  (List.range lines.length).filterMap (method4LineWrite lines)

/-- The flattened text lines used by pass 4 and by the closing-date fallback. -/
def flatLines (soup : Soup) : List PyStr :=
  pySplitlines (soupText (pstr "\n") soup)

/-- `extract_key_value_details` from `scraper.py`: pass 1 with dict
assignment, then passes 2-4 with `setdefault`, on an initially empty dict. -/
def extract_key_value_details (soup : Soup) : List (PyStr × PyStr) :=
  runSetdefault (method4Writes (flatLines soup))
    (runSetdefault (method3Writes soup)
      (runSetdefault (method2Writes soup)
        (runAssign (method1Writes soup) [])))

/-! ### Date shapes and the closing-date fallback

`scrape_job_detail` recognises dates of the regex shape
`[A-Za-z]{3,}\s+\d{1,2},?\s*\d{4}` (month name, day, optional comma, year).
`parseDateShape` implements that regex's greedy matching, including the one
backtracking point (`\d{1,2}` prefers two digits). -/

/-- Components of one date-shape match: the month word, day digits, year
digits, the matched substring and the unconsumed remainder. -/
structure DateMatch where
  letters : PyStr
  dayDigits : PyStr
  yearDigits : PyStr
  matched : PyStr
  rest : PyStr

/-- Match `,?\s*\d{4}` after a candidate day of `dayLen` digits. -/
def parseDateTail (letters ws : PyStr) (dayLen : Nat) (rest2 : PyStr) : Option DateMatch :=
  let day := rest2.take dayLen
  if day.length = dayLen ∧ day.all Char.isDigit then
    let rest3 := rest2.drop dayLen
    let commaPart : PyStr := match rest3 with | ',' :: _ => [','] | _ => []
    let rest4 := match rest3 with | ',' :: r => r | r => r
    let ws2 := rest4.takeWhile isPySpace
    let rest5 := rest4.dropWhile isPySpace
    let year := rest5.take 4
    if year.length = 4 ∧ year.all Char.isDigit then
      some ⟨letters, day, year,
        letters ++ ws ++ day ++ commaPart ++ ws2 ++ year, rest5.drop 4⟩
    else none
  else none

/-- Greedy match of `[A-Za-z]{3,}\s+\d{1,2},?\s*\d{4}` at the start of `s`. -/
def parseDateShape (s : PyStr) : Option DateMatch :=
  let letters := s.takeWhile Char.isAlpha
  let rest1 := s.dropWhile Char.isAlpha
  if letters.length ≥ 3 then
    let ws := rest1.takeWhile isPySpace
    let rest2 := rest1.dropWhile isPySpace
    if ws ≠ [] then
      optOr (parseDateTail letters ws 2 rest2) (parseDateTail letters ws 1 rest2)
    else none
  else none

/-- Anchored match (`^...$`) of the date shape, as used on the line after a
`Closing Date` line. -/
def dateShapeFull (s : PyStr) : Bool :=
  match parseDateShape s with
  | some m => m.rest.isEmpty
  | none => false

/-- The regex `^\s*closing\s+date\s*$` (case-insensitive) of fallback
pattern 1 in `scrape_job_detail`. -/
def isClosingDateLabelLine (line : PyStr) : Bool :=
  let r0 := line.dropWhile isPySpace
  if lowerStr (r0.take 7) = pstr "closing" then
    let r1 := r0.drop 7
    let ws := r1.takeWhile isPySpace
    let r2 := r1.dropWhile isPySpace
    ws ≠ [] && lowerStr (r2.take 4) = pstr "date" && (r2.drop 4).all isPySpace
  else false

/-- Fallback pattern 1: scan the flattened lines for a line matching
`^\s*closing\s+date\s*$`; when the following line (stripped) is a full date
shape, that is the raw closing date; otherwise keep scanning. -/
def pattern1Scan : List PyStr → Option PyStr
  | [] => none
  | line :: rest =>
      if isClosingDateLabelLine line then
        match rest with
        | next :: _ =>
            let dl := pyStrip next
            if dateShapeFull dl then some dl else pattern1Scan rest
        | [] => none
      else pattern1Scan rest

/-- Match `[:\s]+` (non-empty) followed by a date-shape group; returns the
captured group (regex fragment shared by fallback patterns 2 and 3). -/
def matchSepThenDate (r : PyStr) : Option PyStr :=
  let isSep : Char → Bool := fun c => c = ':' || isPySpace c
  let sep := r.takeWhile isSep
  let r2 := r.dropWhile isSep
  if sep ≠ [] then (parseDateShape r2).map (·.matched) else none

/-- Fallback pattern 2 tried at one position:
`Closing\s+Date[:\s]+([A-Za-z]{3,}\s+\d{1,2},?\s*\d{4})`, case-insensitive. -/
def tryClosingDateAt (s : PyStr) : Option PyStr :=
  if lowerStr (s.take 7) = pstr "closing" then
    let r1 := s.drop 7
    let ws := r1.takeWhile isPySpace
    let r2 := r1.dropWhile isPySpace
    if ws ≠ [] ∧ lowerStr (r2.take 4) = pstr "date" then
      matchSepThenDate (r2.drop 4)
    else none
  else none

/-- Fallback pattern 3 tried at one position:
`Deadline[:\s]+([A-Za-z]{3,}\s+\d{1,2},?\s*\d{4})`, case-insensitive. -/
def tryDeadlineAt (s : PyStr) : Option PyStr :=
  if lowerStr (s.take 8) = pstr "deadline" then
    matchSepThenDate (s.drop 8)
  else none

/-- `re.search` of a pattern matcher: try every start position from the
left, returning the first success. -/
def searchLeftmost (f : PyStr → Option PyStr) : PyStr → Option PyStr
  | [] => none
  | c :: rest => optOr (f (c :: rest)) (searchLeftmost f rest)

/-- The three closing-date fallback passes of `scrape_job_detail`, applied
in order to the flattened page text, first success wins. -/
def fallbackClosingRaw (soup : Soup) : Option PyStr :=
  let full := soupText (pstr "\n") soup
  optOr (pattern1Scan (pySplitlines full))
    (optOr (searchLeftmost tryClosingDateAt full)
      (searchLeftmost tryDeadlineAt full))

/-- Month-name table of the external day-first fuzzy date library
(abbreviated and full English month names, lower-cased). -/
def monthNum (w : PyStr) : Option Nat :=
  if w = pstr "jan" ∨ w = pstr "january" then some 1
  else if w = pstr "feb" ∨ w = pstr "february" then some 2
  else if w = pstr "mar" ∨ w = pstr "march" then some 3
  else if w = pstr "apr" ∨ w = pstr "april" then some 4
  else if w = pstr "may" then some 5
  else if w = pstr "jun" ∨ w = pstr "june" then some 6
  else if w = pstr "jul" ∨ w = pstr "july" then some 7
  else if w = pstr "aug" ∨ w = pstr "august" then some 8
  else if w = pstr "sep" ∨ w = pstr "sept" ∨ w = pstr "september" then some 9
  else if w = pstr "oct" ∨ w = pstr "october" then some 10
  else if w = pstr "nov" ∨ w = pstr "november" then some 11
  else if w = pstr "dec" ∨ w = pstr "december" then some 12
  else none

/-- Gregorian leap year. -/
def isLeap (y : Nat) : Bool :=
  y % 4 = 0 && (y % 100 ≠ 0 || y % 400 = 0)

/-- Days in a month (month numbered from 1). -/
def daysInMonth (y m : Nat) : Nat :=
  if m = 2 then (if isLeap y then 29 else 28)
  else if m = 4 ∨ m = 6 ∨ m = 9 ∨ m = 11 then 30
  else 31

/-- Numeric value of a digit string. -/
def natOfDigits (s : PyStr) : Nat :=
  s.foldl (fun n c => n * 10 + (c.toNat - 48)) 0

/-- Modelled from the spec: `parse_closing_date` delegates to the external
`dateutil` fuzzy day-first parser, which is not part of this repository.
Per the spec, raw strings matching the month-name/day/year shape parse to
the evident calendar date (day-first only disambiguates all-numeric forms)
and unparsable strings yield `None`; the model therefore parses exactly the
full month-name/day/year shape (the only shape the extractor's fallback
patterns produce) with calendar validation, and maps every other string to
`none`.  Returns `(year, month, day)`. -/
def parse_closing_date (text : PyStr) : Option (Nat × Nat × Nat) :=
  if text = [] then none
  else
    match parseDateShape text with
    | some m =>
        if m.rest = [] then
          match monthNum (lowerStr m.letters) with
          | some mo =>
              let day := natOfDigits m.dayDigits
              let yr := natOfDigits m.yearDigits
              if 1 ≤ day ∧ day ≤ daysInMonth yr mo then some (yr, mo, day) else none
          | none => none
        else none
    | none => none

/-- Decimal digits of `n`, padded to width `w` with leading zeros. -/
def padNat (w n : Nat) : PyStr :=
  let s := Nat.toDigits 10 n
  List.replicate (w - s.length) '0' ++ s

/-- Python `date.isoformat()`: `YYYY-MM-DD`. -/
def dateIso (y m d : Nat) : PyStr :=
  padNat 4 y ++ pstr "-" ++ padNat 2 m ++ pstr "-" ++ padNat 2 d

/-! ### `JobRecord` and `scrape_job_detail` -/

/-- The `JobRecord` dataclass, fields in source order.  `details` is
`Optional` because the Python default is `None`. -/
structure JobRecord where
  url : PyStr
  title : Option PyStr := none
  company : Option PyStr := none
  location : Option PyStr := none
  closing_date : Option PyStr := none
  closing_date_raw : Option PyStr := none
  apply_url : Option PyStr := none
  description : Option PyStr := none
  details : Option (List (PyStr × PyStr)) := none
  scraped_at : PyStr

/-- Python dataclass semantics of `scraped_at: str = datetime.utcnow()...`:
the default expression is evaluated once, when the class statement runs at
module import.  The model therefore takes both the module-load timestamp and
the record-creation timestamp and shows that a record constructed without an
explicit `scraped_at` stores the former, ignoring the latter. -/
def jobRecordDefault (moduleLoadStamp creationStamp url : PyStr) : JobRecord :=
  { url := url, scraped_at := moduleLoadStamp }

/-- Label synonyms for `company` in `scrape_job_detail`. -/
def companySyn : List PyStr := [pstr "company", pstr "organization", pstr "employer"]

/-- Label synonyms for `location` in `scrape_job_detail`. -/
def locationSyn : List PyStr :=
  [pstr "location", pstr "duty station", pstr "city", pstr "provinces"]

/-- Deadline label synonyms of the `elif` branch in `scrape_job_detail`. -/
def deadlineSyn : List PyStr :=
  [pstr "deadline", pstr "apply by", pstr "application deadline"]

/-- Whether a details key (lower-cased, stripped) names a closing date in
the derived-fields loop: exactly `closing date` or a deadline synonym. -/
def isClosingKey (k : PyStr) : Bool :=
  let lk := pyStrip (lowerStr k)
  lk = pstr "closing date" || deadlineSyn.contains lk

/-- Accumulator of the loop deriving `company`, `location` and
`closing_date_raw` from the details map. -/
structure DerivedAcc where
  company : Option PyStr := none
  location : Option PyStr := none
  raw : Option PyStr := none

/-- The `company` branch of the derived-fields loop. -/
def derivedStepCompany (acc : DerivedAcc) (lk v : PyStr) : DerivedAcc :=
  if acc.company.isNone && companySyn.contains lk then
    { acc with company := some v } else acc

/-- The `location` branch of the derived-fields loop. -/
def derivedStepLocation (acc : DerivedAcc) (lk v : PyStr) : DerivedAcc :=
  if acc.location.isNone && locationSyn.contains lk then
    { acc with location := some v } else acc

/-- The `closing_date_raw` branch of the derived-fields loop (the `if`/`elif`
pair collapses to: first entry with a closing key wins). -/
def derivedStepRaw (acc : DerivedAcc) (k v : PyStr) : DerivedAcc :=
  if acc.raw.isNone && isClosingKey k then { acc with raw := some v } else acc

/-- One iteration of the derived-fields loop of `scrape_job_detail`:
each field is filled from the first entry whose lower-cased stripped key is
one of its synonyms (`closing date` must match exactly; `post date` never
matches). -/
def derivedStep (acc : DerivedAcc) (e : PyStr × PyStr) : DerivedAcc :=
  let lk := pyStrip (lowerStr e.1)
  derivedStepRaw (derivedStepLocation (derivedStepCompany acc lk e.2) lk e.2) e.1 e.2

/-- The full derived-fields loop over the details map. -/
def derivedFields (dets : List (PyStr × PyStr)) : DerivedAcc :=
  dets.foldl derivedStep {}

/-- `extract_apply_url`: first anchor whose visible text mentions `apply`
(with a non-empty stripped `href`), else the first anchor whose raw `href`
value contains `apply`. -/
def extract_apply_url (soup : Soup) : Option PyStr :=
  let hrefOf : HNode → PyStr := fun a => pyStrip ((a.attr (pstr "href")).getD [])
  match (allElems soup).find? (fun a =>
      a.tagOf = pstr "a" && (a.attr (pstr "href")).isSome &&
      hrefOf a ≠ [] &&
      (containsSub (lowerStr (a.getText (pstr " "))) (pstr "apply") ||
        containsSub (lowerStr (a.getText (pstr " "))) (pstr "apply now"))) with
  | some a => some (normalize_url (hrefOf a))
  | none =>
      match (allElems soup).find? (fun a =>
          a.tagOf = pstr "a" &&
          (match a.attr (pstr "href") with
           | some h => containsSub h (pstr "apply")
           | none => false) &&
          hrefOf a ≠ []) with
      | some a => some (normalize_url (hrefOf a))
      | none => none

/-- First element whose attribute value contains a substring
(CSS `[attr*='sub']`), in document order. -/
def selectAttrContains (attrName sub : PyStr) (soup : Soup) : Option HNode :=
  (allElems soup).find? (fun n =>
    match n.attr attrName with
    | some v => containsSub v sub
    | none => false)

/-- One step of `pick_description`: accept a selected element only when its
flattened text is non-empty and longer than 200 characters. -/
def descCandidate (n : Option HNode) : Option PyStr :=
  match n with
  | some el =>
      let t := el.getText (pstr "\n")
      if t ≠ [] ∧ t.length > 200 then some t else none
  | none => none

/-- `pick_description`: try `[id*='description']`, `[class*='description']`,
`article`, `main`, then the document body, keeping the first sufficiently
long text. -/
def pick_description (soup : Soup) : Option PyStr :=
  optOr (descCandidate (selectAttrContains (pstr "id") (pstr "description") soup))
    (optOr (descCandidate (selectAttrContains (pstr "class") (pstr "description") soup))
      (optOr (descCandidate (firstTag (pstr "article") soup))
        (optOr (descCandidate (firstTag (pstr "main") soup))
          (descCandidate (firstTag (pstr "body") soup)))))

/-- `scrape_job_detail` from `scraper.py`: title from the first `h1`,
details via `extract_key_value_details`, derived fields from the details
map, the three-pattern closing-date fallback when no label supplied a raw
closing date, date normalization, apply URL and description.
`moduleStamp` is the module-import timestamp stored by the dataclass
default (see `jobRecordDefault`). -/
def scrape_job_detail (soup : Soup) (url : PyStr) (moduleStamp : PyStr) : JobRecord :=
  let dets := extract_key_value_details soup
  let der := derivedFields dets
  let raw := optOr der.raw (fallbackClosingRaw soup)
  let cd : Option PyStr :=
    match raw with
    | some r =>
        if r ≠ [] then (parse_closing_date r).map (fun d => dateIso d.1 d.2.1 d.2.2)
        else none
    | none => none
  { url := url
    title := (firstTag (pstr "h1") soup).map (HNode.getText (pstr " "))
    company := der.company
    location := der.location
    closing_date := cd
    closing_date_raw := raw
    apply_url := extract_apply_url soup
    description := pick_description soup
    details := some dets
    scraped_at := moduleStamp }

/-- A `<p>` element holding one text node (used by concrete documents). -/
def pElem (s : String) : HNode := .elem (pstr "p") [] [.htext (pstr s)]

/-- Concrete markup whose label-next-sibling pass writes the key `Location`
twice: `<p>Location</p><p>Kabul</p><p>Location</p><p>Herat</p>`. -/
def c1Doc : Soup := [pElem "Location", pElem "Kabul", pElem "Location", pElem "Herat"]

/-- Concrete detail markup whose flattened text reads
`Deadline: Feb 1, 2026` / `Closing Date` / `Jan 24, 2026`: the structural
passes (1-3) contribute nothing, yet the line scan records the earlier
`Deadline` entry before the `Closing Date` pair. -/
def c6Doc : Soup := [.htext (pstr "Deadline: Feb 1, 2026\nClosing Date\nJan 24, 2026")]

/-- Concrete detail markup holding exactly the line pair
`Closing Date` / `Jan 24, 2026`. -/
def c6WitnessDoc : Soup := [.htext (pstr "Closing Date\nJan 24, 2026")]

/-! ### `save_csv` and `save_json`

Both writers serialise the same records; the model captures each CSV row as
a field-name/cell map and each JSON array element as a field-name/value map,
with a small JSON value type (`null`, string, string-to-string object) that
covers every value `asdict(JobRecord)` produces. -/

/-- JSON values occurring in a serialised `JobRecord`. -/
inductive JVal where
  | jnull
  | jstr (s : PyStr)
  | jobjs (d : List (PyStr × PyStr))
deriving DecidableEq

/-- Opening brace character (0x7b). -/
def lbrace : Char := Char.ofNat 123

/-- Closing brace character (0x7d). -/
def rbrace : Char := Char.ofNat 125

/-- Lower-case hexadecimal digit. -/
def hexDigit (n : Nat) : Char :=
  if n < 10 then Char.ofNat (48 + n) else Char.ofNat (87 + n)

/-- `json.dumps` escaping of one character (`ensure_ascii=False`): quote,
backslash and control characters are escaped, everything else passes
through. -/
def jsonEscapeChar (c : Char) : PyStr :=
  if c = '"' then ['\\', '"']
  else if c = '\\' then ['\\', '\\']
  else if c = '\n' then ['\\', 'n']
  else if c = '\t' then ['\\', 't']
  else if c = '\r' then ['\\', 'r']
  else if c.toNat = 8 then ['\\', 'b']
  else if c.toNat = 12 then ['\\', 'f']
  else if c.toNat < 32 then
    ['\\', 'u', '0', '0', hexDigit (c.toNat / 16), hexDigit (c.toNat % 16)]
  else [c]

/-- A JSON string literal. -/
def jsonQuote (s : PyStr) : PyStr :=
  '"' :: (List.flatten (s.map jsonEscapeChar)) ++ ['"']

/-- `json.dumps` of a string-to-string dict (default separators). -/
def jdumpsObj (d : List (PyStr × PyStr)) : PyStr :=
  lbrace :: (List.intercalate (pstr ", ")
    (d.map (fun e => jsonQuote e.1 ++ pstr ": " ++ jsonQuote e.2))) ++ [rbrace]

/-- `json.dumps` of a `JVal`. -/
def jdumps : JVal → PyStr
  | .jnull => pstr "null"
  | .jstr s => jsonQuote s
  | .jobjs d => jdumpsObj d

/-- The `csv` module renders Python `None` as an empty cell. -/
def csvCellOfOpt : Option PyStr → PyStr
  | some s => s
  | none => []

/-- `asdict` turns an optional string field into a JSON string or `null`. -/
def jsonValOfOpt : Option PyStr → JVal
  | some s => .jstr s
  | none => .jnull

/-- The string rendering a scalar JSON value receives in a CSV cell. -/
def jscalarCell : JVal → PyStr
  | .jnull => []
  | .jstr s => s
  | .jobjs d => jdumpsObj d

/-- One row written by `save_csv`, keyed by the `fields` header list of the
source: `details` is embedded as a JSON string column `details_json`, and
`description` is `r.description or ""`. -/
def csvRowOf (r : JobRecord) : List (PyStr × PyStr) :=
  [ (pstr "url", r.url),
    (pstr "title", csvCellOfOpt r.title),
    (pstr "company", csvCellOfOpt r.company),
    (pstr "location", csvCellOfOpt r.location),
    (pstr "closing_date", csvCellOfOpt r.closing_date),
    (pstr "closing_date_raw", csvCellOfOpt r.closing_date_raw),
    (pstr "apply_url", csvCellOfOpt r.apply_url),
    (pstr "scraped_at", r.scraped_at),
    (pstr "details_json", jdumps (.jobjs (r.details.getD []))),
    (pstr "description", csvCellOfOpt r.description) ]

/-- One element of the array written by `save_json`: `asdict(r)`, fields in
dataclass order, the details map inlined (or `null` when absent). -/
def jsonRecordOf (r : JobRecord) : List (PyStr × JVal) :=
  [ (pstr "url", .jstr r.url),
    (pstr "title", jsonValOfOpt r.title),
    (pstr "company", jsonValOfOpt r.company),
    (pstr "location", jsonValOfOpt r.location),
    (pstr "closing_date", jsonValOfOpt r.closing_date),
    (pstr "closing_date_raw", jsonValOfOpt r.closing_date_raw),
    (pstr "apply_url", jsonValOfOpt r.apply_url),
    (pstr "description", jsonValOfOpt r.description),
    (pstr "details", match r.details with | some d => .jobjs d | none => .jnull),
    (pstr "scraped_at", .jstr r.scraped_at) ]

/-- `save_csv`: one row per record. -/
def save_csv (rs : List JobRecord) : List (List (PyStr × PyStr)) :=
  rs.map csvRowOf

/-- `save_json`: one JSON object per record. -/
def save_json (rs : List JobRecord) : List (List (PyStr × JVal)) :=
  rs.map jsonRecordOf

/-- Lookup in a JSON object. -/
def lookupJ (k : PyStr) : List (PyStr × JVal) → Option JVal
  | [] => none
  | (k', v) :: d => if k' = k then some v else lookupJ k d

/-- The scalar fields named by the serialisation claim. -/
def scalarFields : List PyStr :=
  [pstr "url", pstr "title", pstr "company", pstr "location",
   pstr "closing_date", pstr "closing_date_raw", pstr "apply_url",
   pstr "scraped_at", pstr "description"]

/-- A record whose `details` field is `None` (the dataclass default). -/
def c8Rec : JobRecord :=
  { url := pstr "https://jobs.af/jobs/x", scraped_at := pstr "2026-01-01T00:00:00Z" }

/-- A record with a populated details map and an absent title. -/
def c8WitnessRec : JobRecord :=
  { url := pstr "https://jobs.af/jobs/x",
    details := some [(pstr "Location", pstr "Kabul")],
    scraped_at := pstr "2026-01-01T00:00:00Z" }

/-! ### `goto_with_retry` (Resilient Navigator)

One call is modelled by the per-attempt outcomes the environment produces:
either the attempt raised (`err`, carrying an error identifier) or navigation
plus the challenge gate completed and the visible text was read (`loaded`).
The outcome list has one entry per loop iteration (`range(retries)`). -/

/-- Outcome of one navigation attempt. -/
inductive NavOutcome where
  | err (e : Nat)
  | loaded (text : PyStr)
deriving DecidableEq

/-- The challenge check of `goto_with_retry` line 82: the visible text
contains neither `Verifying you are human` nor `Just a moment`. -/
def challengeClear (t : PyStr) : Bool :=
  !(containsSub t (pstr "Verifying you are human")) &&
    !(containsSub t (pstr "Just a moment"))

/-- `goto_with_retry`: walk the attempts; a clear load returns `True`
immediately; an attempt that raised re-raises only when it was the last
attempt; exhausting the loop returns `False`. -/
def goto_with_retry : List NavOutcome → Except Nat Bool
  | [] => .ok false
  | [o] =>
      match o with
      | .err e => .error e
      | .loaded t => if challengeClear t then .ok true else .ok false
  | o :: rest =>
      match o with
      | .err _ => goto_with_retry rest
      | .loaded t => if challengeClear t then .ok true else goto_with_retry rest

/-- Whether some attempt loaded challenge-free text. -/
def hasClearAttempt (outs : List NavOutcome) : Bool :=
  outs.any fun o =>
    match o with
    | .loaded t => challengeClear t
    | .err _ => false

/-- A run whose first attempt raises error 7 and whose final attempt loads
but stays challenged. -/
def c5Cex : List NavOutcome := [.err 7, .loaded (pstr "Just a moment")]

/-! ### `select_one_category` (Filter-UI Driver)

The browser environment is abstracted to what the function observes: whether
the Categories control was located (directly, or after re-opening the
Filters panel), whether a dropdown search input was located, its bounding
box, the window height, the DOM's `div` candidates (the option scan looks
only at `div`s), and per-click-step oracles for accidental navigation and
click failures. -/

/-- One `div` as seen by the option-scanning script: raw text content,
bounding rectangle, class string, and whether it holds an `svg` check mark. -/
structure OptCand where
  text : PyStr
  left : Int
  top : Int
  width : Int
  height : Int
  cls : PyStr
  hasSvg : Bool
deriving DecidableEq

/-- The option data the script returns to Python. -/
structure FoundOpt where
  text : PyStr
  textLower : PyStr
  alreadyChecked : Bool
  centerX : Int
  centerY : Int
deriving DecidableEq

/-- JS `el.textContent.trim().toLowerCase()`. -/
def candTextLower (c : OptCand) : PyStr := lowerStr (pyStrip c.text)

/-- Projection of a kept candidate into the returned option data. -/
def toFound (c : OptCand) : FoundOpt :=
  { text := pyStrip c.text
    textLower := candTextLower c
    alreadyChecked := c.hasSvg
    centerX := c.left + c.width / 2
    centerY := c.top + c.height / 2 }

/-- Integer absolute value used by the geometric filters. -/
def absInt (n : Int) : Int := if n < 0 then -n else n

/-- Geometry/visibility filter of the primary (class-hinted) scan:
class contains `py-2` and `px-3`, width at least 100, height at least 20,
fully inside the viewport, within 80px horizontally of the input, and at
least 30px below it. -/
def primaryGeom (inputX inputY innerH : Int) (c : OptCand) : Bool :=
  containsSub c.cls (pstr "py-2") && containsSub c.cls (pstr "px-3") &&
  !(c.width < 100) && !(c.height < 20) &&
  !(c.top < 0) && !(c.top + c.height > innerH) &&
  !(absInt (c.left - inputX) > 80) && !(c.top < inputY + 30)

/-- Geometry filter of the fallback generic-`div` scan. -/
def fallbackGeom (inputX inputY innerH : Int) (c : OptCand) : Bool :=
  !(c.width < 150 || c.width > 450) && !(c.height < 25 || c.height > 70) &&
  !(c.top < 0) && !(c.top + c.height > innerH) &&
  !(absInt (c.left - inputX) > 100) && !(c.top < inputY + 30)

/-- Text eligibility shared by both scans: the lower-cased text does not
contain the excluded keyword `architect` and is not in the tracking set. -/
def textEligible (alreadySelected : List PyStr) (c : OptCand) : Bool :=
  !(containsSub (candTextLower c) (pstr "architect")) &&
    !(alreadySelected.contains (candTextLower c))

/-- Primary-scan keep condition: geometry, eligibility, and case-insensitive
substring containment of the search term. -/
def primaryKeep (inputX inputY innerH : Int) (searchTerm : PyStr)
    (alreadySelected : List PyStr) (c : OptCand) : Bool :=
  primaryGeom inputX inputY innerH c && textEligible alreadySelected c &&
    containsSub (candTextLower c) searchTerm

/-- Fallback-scan keep condition. -/
def fallbackKeep (inputX inputY innerH : Int) (searchTerm : PyStr)
    (alreadySelected : List PyStr) (c : OptCand) : Bool :=
  fallbackGeom inputX inputY innerH c && textEligible alreadySelected c &&
    containsSub (candTextLower c) searchTerm

/-- The in-page option scan: the class-hinted scan, and only when it finds
nothing, the looser generic scan. -/
def findAllOptions (inputX inputY innerH : Int) (searchTerm : PyStr)
    (alreadySelected : List PyStr) (cands : List OptCand) : List FoundOpt :=
  let primary := (cands.filter (primaryKeep inputX inputY innerH searchTerm alreadySelected)).map toFound
  if primary.isEmpty then
    (cands.filter (fallbackKeep inputX inputY innerH searchTerm alreadySelected)).map toFound
  else primary

/-- Python-side dedup: keep the first option per `textLower`, dropping ones
already in the tracking set. -/
def dedupOptions (alreadySelected : List PyStr) (opts : List FoundOpt) : List FoundOpt :=
  (opts.foldl
    (fun (acc : List FoundOpt × List PyStr) opt =>
      if !(acc.2.contains opt.textLower) && !(alreadySelected.contains opt.textLower)
      then (acc.1 ++ [opt], acc.2 ++ [opt.textLower])
      else acc)
    ([], [])).1

/-- Per-click-step oracles: accidental navigation detected before/after the
click, and whether the click call itself succeeded (a failed click raises,
is caught, and the loop continues with the next option). -/
structure ClickEnv where
  navBefore : Nat → Bool
  navAfter : Nat → Bool
  clickOk : Nat → Bool

/-- Python-set insertion (`set.add`) on the duplicate-free list model. -/
def insertSet (s : List PyStr) (x : PyStr) : List PyStr :=
  if s.contains x then s else s ++ [x]

/-- State of the option-clicking loop: the tracking set, the labels actually
clicked, and whether a `break` has fired. -/
structure SelState where
  sel : List PyStr
  clicked : List PyStr
  stopped : Bool

/-- The option-clicking loop of `select_one_category`: already-checked
options only join the tracking set; a pre-click navigation event breaks; a
failed click skips the option; a successful click records the label and
joins the tracking set; a post-click navigation event breaks.  (The
dropdown-reopen branch only refreshes page state, never the returned set.) -/
def clickLoop (env : ClickEnv) : List FoundOpt → Nat → SelState → SelState
  | [], _, st => st
  | opt :: rest, i, st =>
      if st.stopped then st
      else if opt.alreadyChecked then
        clickLoop env rest (i + 1) { st with sel := insertSet st.sel opt.textLower }
      else if st.sel.contains opt.textLower then clickLoop env rest (i + 1) st
      else if env.navBefore i then { st with stopped := true }
      else if !(env.clickOk i) then clickLoop env rest (i + 1) st
      else
        let st' := { st with
          sel := insertSet st.sel opt.textLower
          clicked := st.clicked ++ [opt.textLower] }
        if env.navAfter i then { st' with stopped := true }
        else clickLoop env rest (i + 1) st'

/-- The UI environment one `select_one_category` call observes. -/
structure UIEnv where
  ctrlFound : Bool
  ctrlRetryFound : Bool
  inputFound : Bool
  inputBox : Option (Int × Int)
  innerHeight : Int
  cands : List OptCand
  click : ClickEnv

/-- The search text the option scan compares against: the query is
lower-cased and stripped on the Python side and lower-cased and trimmed
again inside the script (the second pass is idempotent). -/
def jsNeedle (t : PyStr) : PyStr := pyStrip (lowerStr (pyStrip (lowerStr t)))

/-- The deduplicated option list of one `select_one_category` call. -/
def selectOptions (env : UIEnv) (x y : Int) (t : PyStr) (s : List PyStr) : List FoundOpt :=
  dedupOptions s (findAllOptions x y env.innerHeight (jsNeedle t) s env.cands)

/-- `select_one_category`: a missing Categories control (after the Filters
retry) is a no-op returning the tracking set; a missing dropdown search
input raises `Could not find Categories input.`; a missing bounding box
raises `Could not get input bounding box`; otherwise the option scan runs
and the clicking loop updates the tracking set, which is returned. -/
def select_one_category (env : UIEnv) (t : PyStr) (s : List PyStr) :
    Except PyStr (List PyStr) :=
  if !(env.ctrlFound || env.ctrlRetryFound) then .ok s
  else if !env.inputFound then .error (pstr "Could not find Categories input.")
  else
    match env.inputBox with
    | none => .error (pstr "Could not get input bounding box")
    | some (x, y) =>
        .ok (clickLoop env.click (selectOptions env x y t s) 0
          { sel := s, clicked := [], stopped := false }).sel

/-- A click environment in which nothing goes wrong. -/
def calmClicks : ClickEnv :=
  { navBefore := fun _ => false, navAfter := fun _ => false, clickOk := fun _ => true }

/-- Environment where the Categories control is found but the dropdown
search input never appears. -/
def c3Env : UIEnv :=
  { ctrlFound := true, ctrlRetryFound := false, inputFound := false,
    inputBox := none, innerHeight := 720, cands := [], click := calmClicks }

/-- Environment where neither the control nor its retry is found. -/
def c3NoCtrlEnv : UIEnv :=
  { ctrlFound := false, ctrlRetryFound := false, inputFound := false,
    inputBox := none, innerHeight := 720, cands := [], click := calmClicks }

/-- Environment with the control and input found but no matching options. -/
def c3NoOptsEnv : UIEnv :=
  { ctrlFound := true, ctrlRetryFound := false, inputFound := true,
    inputBox := some (100, 200), innerHeight := 720, cands := [], click := calmClicks }

/-- A matching `Data Science` candidate option. -/
def c7DataOpt : OptCand :=
  { text := pstr " Data Science ", left := 100, top := 300, width := 200,
    height := 40, cls := pstr "py-2 px-3 option", hasSvg := false }

/-- A candidate option containing the excluded keyword. -/
def c7ArchOpt : OptCand :=
  { text := pstr "Data Architect", left := 100, top := 350, width := 200,
    height := 40, cls := pstr "py-2 px-3 option", hasSvg := false }

/-- Two candidate options: a matching `Data Science` entry and an option
containing the excluded keyword. -/
def c7Cands : List OptCand := [c7DataOpt, c7ArchOpt]

/-- Environment exposing `c7Cands` under a found control and input. -/
def c7Env : UIEnv :=
  { ctrlFound := true, ctrlRetryFound := false, inputFound := true,
    inputBox := some (100, 200), innerHeight := 720, cands := c7Cands,
    click := calmClicks }

/-! ### The harvest driver of `main`

The page-1 bootstrap parses the `Available Jobs` counter (`totalJobs`) and
the pagination scan returns its maximum (`detectedMax`); both are inputs
here.  `linksOfPage` abstracts the per-page link extraction
(`extract_job_links_from_dom` plus the passive response listener); the
accumulated set is modelled by first-occurrence dedup plus the final
`sorted(...)`. -/

/-- `max_pages = (total_jobs + jobs_per_page - 1) // jobs_per_page` followed
by `if detected_max > max_pages: max_pages = detected_max`. -/
def computeMaxPages (totalJobs detectedMax : Nat) : Nat :=
  let mp := (totalJobs + 10 - 1) / 10
  if detectedMax > mp then detectedMax else mp

/-- Python `range(a, b)` as a list. -/
def pythonRange (a b : Nat) : List Nat := (List.range (b - a)).map (a + ·)

/-- Result of the harvest phase: the no-results flag, the listing pages
visited, the final link list, and the detail pages visited. -/
structure RunResult where
  noResults : Bool
  visitedPages : List Nat
  harvestedLinks : List PyStr
  detailVisited : List PyStr
deriving DecidableEq

/-- Python string `<` (code-point lexicographic), as used by `sorted`. -/
def leLex : PyStr → PyStr → Bool
  | [], _ => true
  | _ :: _, [] => false
  | a :: as, b :: bs => if a = b then leLex as bs else decide (a < b)

/-- Set semantics of `job_links`: keep the first occurrence of each URL. -/
def dedupKeepFirst (l : List PyStr) : List PyStr :=
  l.foldl (fun acc x => if acc.contains x then acc else acc ++ [x]) []

/-- `sorted(job_links)`. -/
def sortedLinks (l : List PyStr) : List PyStr :=
  (dedupKeepFirst l).mergeSort leLex

/-- The harvest phase of `main`: a zero total terminates at once with the
no-results report, before the page loop and before any detail visit
(discarding all transient state); otherwise the loop visits pages
`1..max_pages`, accumulates the per-page links as a set, and the sorted
links are then visited one by one as detail pages. -/
def runMain (totalJobs detectedMax : Nat) (linksOfPage : Nat → List PyStr) : RunResult :=
  if totalJobs = 0 then
    { noResults := true, visitedPages := [], harvestedLinks := [], detailVisited := [] }
  else
    let mp := computeMaxPages totalJobs detectedMax
    let pages := pythonRange 1 (mp + 1)
    let links := sortedLinks (List.flatten (pages.map linksOfPage))
    { noResults := false, visitedPages := pages, harvestedLinks := links,
      detailVisited := links }

end JobsAf

namespace JobsAf

/-- Helper: a concrete prefix is a prefix of its own append. -/
theorem pyStartswith_append (p rest : PyStr) : pyStartswith (p ++ rest) p = true := by
  unfold pyStartswith
  induction p with
  | nil => simp [List.isPrefixOf]
  | cons c cs ih => simp [List.isPrefixOf, ih]

theorem rstripSlash_BASE : rstripSlash BASE = BASE := by decide

/-- Claim C9: `normalize_url` always returns an absolute URL (beginning with
`http://` or `https://`), and it is idempotent: applying it twice gives the
same result as applying it once. -/
theorem normalize_url_absolute_idempotent (u : PyStr) :
    (pyStartswith (normalize_url u) (pstr "http://") = true ∨
      pyStartswith (normalize_url u) (pstr "https://") = true) ∧
    normalize_url (normalize_url u) = normalize_url u := by
  have habs : pyStartswith (normalize_url u) (pstr "http://") = true ∨
      pyStartswith (normalize_url u) (pstr "https://") = true := by
    unfold normalize_url
    by_cases h1 : pyStartswith u (pstr "/") = true
    · right
      simp only [h1, if_true]
      have : BASE ++ u = pstr "https://" ++ (pstr "jobs.af" ++ u) := by
        simp [BASE, pstr]
      rw [this]
      exact pyStartswith_append _ _
    · simp only [h1]
      by_cases h2 : (pyStartswith u (pstr "http://") || pyStartswith u (pstr "https://")) = true
      · simp only [h2, if_true, if_false, Bool.false_eq_true]
        rcases Bool.or_eq_true_iff.mp h2 with h | h
        · exact Or.inl h
        · exact Or.inr h
      · right
        simp only [h2, if_false, Bool.false_eq_true]
        rw [rstripSlash_BASE]
        have : BASE ++ pstr "/" ++ lstripSlash u
            = pstr "https://" ++ (pstr "jobs.af/" ++ lstripSlash u) := by
          simp [BASE, pstr]
        rw [this]
        exact pyStartswith_append _ _
  refine ⟨habs, ?_⟩
  have hslash : ∀ v : PyStr,
      (pyStartswith v (pstr "http://") = true ∨ pyStartswith v (pstr "https://") = true) →
      pyStartswith v (pstr "/") = false := by
    intro v hv
    rcases hv with hv | hv <;>
    · cases v with
      | nil => simp [pyStartswith, pstr, List.isPrefixOf] at hv
      | cons c cs =>
          have hc : c = 'h' := by
            simp [pyStartswith, pstr, List.isPrefixOf] at hv
            exact hv.1.symm
          subst hc
          simp [pyStartswith, pstr, List.isPrefixOf]
  conv_lhs => rw [normalize_url]
  rw [hslash _ habs]
  have h2 : (pyStartswith (normalize_url u) (pstr "http://") ||
      pyStartswith (normalize_url u) (pstr "https://")) = true := by
    rcases habs with h | h <;> simp [h]
  simp [h2]

/-! ### Dictionary lemmas -/

theorem optOr_none_right {α : Type} (x : Option α) : optOr x none = x := by
  cases x <;> rfl

theorem optOr_assoc {α : Type} (x y z : Option α) :
    optOr (optOr x y) z = optOr x (optOr y z) := by
  cases x <;> rfl

theorem lookupKV_append (k : PyStr) (l1 l2 : List (PyStr × PyStr)) :
    lookupKV k (l1 ++ l2) = optOr (lookupKV k l1) (lookupKV k l2) := by
  induction l1 with
  | nil => rfl
  | cons e l1 ih =>
      obtain ⟨k', v⟩ := e
      by_cases h : k' = k <;> simp [lookupKV, h, ih, optOr]

theorem lookupKV_dictSet (k a b : PyStr) (d : List (PyStr × PyStr)) :
    lookupKV k (dictSet d a b) = if a = k then some b else lookupKV k d := by
  induction d with
  | nil => rfl
  | cons e d ih =>
      obtain ⟨k', v'⟩ := e
      by_cases h1 : k' = a <;> by_cases h2 : a = k <;>
        simp_all [dictSet, lookupKV]

theorem lookupKV_dictSetdefault (k a b : PyStr) (d : List (PyStr × PyStr)) :
    lookupKV k (dictSetdefault d a b) =
      if a = k then optOr (lookupKV k d) (some b) else lookupKV k d := by
  induction d with
  | nil => simp [dictSetdefault, lookupKV, optOr]
  | cons e d ih =>
      obtain ⟨k', v'⟩ := e
      by_cases h1 : k' = a <;> by_cases h2 : a = k <;>
        simp_all [dictSetdefault, lookupKV, optOr]

theorem lastKV_cons (k a b : PyStr) (ws : List (PyStr × PyStr)) :
    lastKV k ((a, b) :: ws) =
      optOr (lastKV k ws) (if a = k then some b else none) := by
  unfold lastKV
  simp only [List.reverse_cons, lookupKV_append]
  by_cases h : a = k <;> simp [lookupKV, h]

theorem runAssign_lookup (k : PyStr) (ws : List (PyStr × PyStr)) :
    ∀ d, lookupKV k (runAssign ws d) = optOr (lastKV k ws) (lookupKV k d) := by
  induction ws with
  | nil => intro d; rfl
  | cons e ws ih =>
      intro d
      obtain ⟨a, b⟩ := e
      have : runAssign ((a, b) :: ws) d = runAssign ws (dictSet d a b) := rfl
      rw [this, ih, lastKV_cons, optOr_assoc, lookupKV_dictSet]
      by_cases h : a = k <;> simp [h, optOr]

theorem runSetdefault_lookup (k : PyStr) (ws : List (PyStr × PyStr)) :
    ∀ d, lookupKV k (runSetdefault ws d) =
      optOr (lookupKV k d) (lookupKV k ws) := by
  induction ws with
  | nil => intro d; simp [runSetdefault, lookupKV, optOr_none_right]
  | cons e ws ih =>
      intro d
      obtain ⟨a, b⟩ := e
      have : runSetdefault ((a, b) :: ws) d = runSetdefault ws (dictSetdefault d a b) := rfl
      rw [this, ih, lookupKV_dictSetdefault]
      by_cases h : a = k
      · simp only [h, if_pos rfl, lookupKV, optOr_assoc]
        cases lookupKV k d <;> simp [optOr]
      · simp [h, lookupKV]

/-- Claim C1 (amended): the merge is first-pass-wins across the four passes —
passes 2-4 (`setdefault`) never overwrite an existing key, and every pass-1
write precedes them — but within pass 1 plain dict assignment lets a later
write overwrite an earlier one.  Hence the value bound to a key is the LAST
pass-1 write of that key when pass 1 wrote it, and otherwise the first write
among passes 2-4 in order. -/
theorem extract_details_precedence (soup : Soup) (k : PyStr) :
    lookupKV k (extract_key_value_details soup) =
      optOr (lastKV k (method1Writes soup))
        (lookupKV k (method2Writes soup ++ method3Writes soup ++
          method4Writes (flatLines soup))) := by
  unfold extract_key_value_details
  rw [runSetdefault_lookup, runSetdefault_lookup, runSetdefault_lookup,
    runAssign_lookup]
  simp only [lookupKV, optOr_none_right, lookupKV_append, optOr_assoc]

/-- Claim C1 counterexample: in `c1Doc` the first pass writes `Location`
first as `Kabul` and then as `Herat`; the later write overwrites the earlier
one, so the retained value is `Herat`, not the first-written `Kabul`. -/
theorem extract_details_overwrite_cex :
    method1Writes c1Doc =
      [(pstr "Location", pstr "Kabul"), (pstr "Location", pstr "Herat")] ∧
    lookupKV (pstr "Location") (extract_key_value_details c1Doc) =
      some (pstr "Herat") := by
  exact ⟨by decide, by decide⟩

/-! ### Entry provenance and first-match lemmas for the details dict -/

theorem lookupKV_some_mem (k : PyStr) (d : List (PyStr × PyStr)) (v : PyStr)
    (h : lookupKV k d = some v) : (k, v) ∈ d := by
  induction d with
  | nil => simp [lookupKV] at h
  | cons e d ih =>
      obtain ⟨k', v'⟩ := e
      by_cases hk : k' = k
      · subst hk
        simp [lookupKV] at h
        subst h
        exact List.mem_cons_self _ _
      · simp only [lookupKV, if_neg hk] at h
        exact List.mem_cons_of_mem _ (ih h)

theorem dictSetdefault_eq_or (d : List (PyStr × PyStr)) (a b : PyStr) :
    dictSetdefault d a b = d ∨ dictSetdefault d a b = d ++ [(a, b)] := by
  induction d with
  | nil => right; rfl
  | cons e d ih =>
      obtain ⟨k', v'⟩ := e
      by_cases hk : k' = a
      · left; simp [dictSetdefault, hk]
      · rcases ih with h | h
        · left; simp [dictSetdefault, hk, h]
        · right; simp [dictSetdefault, hk, h]

theorem dictSetdefault_of_none (d : List (PyStr × PyStr)) (a b : PyStr)
    (h : lookupKV a d = none) : dictSetdefault d a b = d ++ [(a, b)] := by
  induction d with
  | nil => rfl
  | cons e d ih =>
      obtain ⟨k', v'⟩ := e
      by_cases hk : k' = a
      · simp [lookupKV, hk] at h
      · simp only [lookupKV, if_neg hk] at h
        simp [dictSetdefault, hk, ih h]

theorem findq_append (p : PyStr × PyStr → Bool) (l1 l2 : List (PyStr × PyStr)) :
    (l1 ++ l2).find? p = optOr (l1.find? p) (l2.find? p) := by
  induction l1 with
  | nil => simp [optOr]
  | cons e l1 ih =>
      cases h : p e with
      | true =>
          rw [List.cons_append, List.find?_cons_of_pos _ h, List.find?_cons_of_pos _ h]
          rfl
      | false =>
          have h' : ¬ p e = true := by simp [h]
          rw [List.cons_append, List.find?_cons_of_neg _ h', List.find?_cons_of_neg _ h', ih]

theorem find?_runSetdefault_of_some (p : PyStr × PyStr → Bool)
    (ws : List (PyStr × PyStr)) :
    ∀ d e, d.find? p = some e → (runSetdefault ws d).find? p = some e := by
  induction ws with
  | nil => intro d e h; exact h
  | cons w ws ih =>
      intro d e h
      obtain ⟨a, b⟩ := w
      have hstep : runSetdefault ((a, b) :: ws) d = runSetdefault ws (dictSetdefault d a b) := rfl
      rw [hstep]
      rcases dictSetdefault_eq_or d a b with hd | hd
      · rw [hd]; exact ih d e h
      · rw [hd]
        refine ih _ e ?_
        rw [findq_append, h]
        rfl

theorem find?_runSetdefault_keys (q : PyStr → Bool) (ws : List (PyStr × PyStr)) :
    ∀ d, (∀ x ∈ d, q x.1 = false) →
      (runSetdefault ws d).find? (fun e => q e.1) = ws.find? (fun e => q e.1) := by
  induction ws with
  | nil =>
      intro d hd
      simp only [runSetdefault, List.foldl_nil, List.find?_nil]
      rw [List.find?_eq_none]
      intro x hx
      simp [hd x hx]
  | cons w ws ih =>
      intro d hd
      obtain ⟨a, b⟩ := w
      have hstep : runSetdefault ((a, b) :: ws) d = runSetdefault ws (dictSetdefault d a b) := rfl
      rw [hstep]
      cases hq : q a with
      | true =>
          have hnone : lookupKV a d = none := by
            cases hl : lookupKV a d with
            | none => rfl
            | some v =>
                have := hd _ (lookupKV_some_mem a d v hl)
                simp only at this
                rw [this] at hq
                exact absurd hq (by simp)
          rw [dictSetdefault_of_none d a b hnone]
          have hfound : (d ++ [(a, b)]).find? (fun e => q e.1) = some (a, b) := by
            rw [findq_append]
            have h1 : d.find? (fun e => q e.1) = none := by
              rw [List.find?_eq_none]
              intro x hx
              simp [hd x hx]
            rw [h1]
            simp [List.find?_cons_of_pos, hq, optOr]
          rw [find?_runSetdefault_of_some _ ws _ _ hfound]
          rw [List.find?_cons_of_pos _ (by simpa using hq)]
      | false =>
          rw [ih (dictSetdefault d a b) ?_]
          · rw [List.find?_cons_of_neg _ (by simp [hq])]
          · intro x hx
            rcases dictSetdefault_eq_or d a b with hd' | hd'
            · rw [hd'] at hx; exact hd x hx
            · rw [hd'] at hx
              rcases List.mem_append.mp hx with hx | hx
              · exact hd x hx
              · simp only [List.mem_singleton] at hx
                subst hx
                exact hq

theorem mem_dictSet (d : List (PyStr × PyStr)) (a b : PyStr) (e : PyStr × PyStr)
    (h : e ∈ dictSet d a b) : e ∈ d ∨ e.1 = a := by
  induction d with
  | nil =>
      simp only [dictSet, List.mem_singleton] at h
      subst h; right; rfl
  | cons w d ih =>
      obtain ⟨k', v'⟩ := w
      by_cases hk : k' = a
      · simp only [dictSet, if_pos hk, List.mem_cons] at h
        rcases h with h | h
        · subst h; right; exact hk
        · left; exact List.mem_cons_of_mem _ h
      · simp only [dictSet, if_neg hk, List.mem_cons] at h
        rcases h with h | h
        · subst h; left; exact List.mem_cons_self _ _
        · rcases ih h with h' | h'
          · left; exact List.mem_cons_of_mem _ h'
          · right; exact h'

theorem mem_runAssign (ws : List (PyStr × PyStr)) :
    ∀ d e, e ∈ runAssign ws d → e ∈ d ∨ e.1 ∈ ws.map Prod.fst := by
  induction ws with
  | nil => intro d e h; left; exact h
  | cons w ws ih =>
      intro d e h
      obtain ⟨a, b⟩ := w
      have hstep : runAssign ((a, b) :: ws) d = runAssign ws (dictSet d a b) := rfl
      rw [hstep] at h
      rcases ih _ e h with h' | h'
      · rcases mem_dictSet d a b e h' with h'' | h''
        · left; exact h''
        · right; simp [h'']
      · right; simp [h']

theorem mem_runSetdefault (ws : List (PyStr × PyStr)) :
    ∀ d e, e ∈ runSetdefault ws d → e ∈ d ∨ e ∈ ws := by
  induction ws with
  | nil => intro d e h; left; exact h
  | cons w ws ih =>
      intro d e h
      obtain ⟨a, b⟩ := w
      have hstep : runSetdefault ((a, b) :: ws) d = runSetdefault ws (dictSetdefault d a b) := rfl
      rw [hstep] at h
      rcases ih _ e h with h' | h'
      · rcases dictSetdefault_eq_or d a b with hd | hd
        · rw [hd] at h'; left; exact h'
        · rw [hd] at h'
          rcases List.mem_append.mp h' with h'' | h''
          · left; exact h''
          · simp only [List.mem_singleton] at h''
            subst h''
            right; exact List.mem_cons_self _ _
      · right; exact List.mem_cons_of_mem _ h'

/-! ### The derived-fields loop -/

theorem derivedStepCompany_raw (acc : DerivedAcc) (lk v : PyStr) :
    (derivedStepCompany acc lk v).raw = acc.raw := by
  unfold derivedStepCompany
  split <;> rfl

theorem derivedStepLocation_raw (acc : DerivedAcc) (lk v : PyStr) :
    (derivedStepLocation acc lk v).raw = acc.raw := by
  unfold derivedStepLocation
  split <;> rfl

theorem derivedStep_raw (acc : DerivedAcc) (e : PyStr × PyStr) :
    (derivedStep acc e).raw =
      if acc.raw.isNone && isClosingKey e.1 then some e.2 else acc.raw := by
  simp only [derivedStep, derivedStepRaw]
  split
  · next h =>
      rw [derivedStepLocation_raw, derivedStepCompany_raw] at h
      simp [h]
  · next h =>
      rw [derivedStepLocation_raw, derivedStepCompany_raw] at h
      rw [derivedStepLocation_raw, derivedStepCompany_raw]
      simp [h]

theorem derivedFold_raw (dets : List (PyStr × PyStr)) :
    ∀ acc : DerivedAcc, (dets.foldl derivedStep acc).raw =
      optOr acc.raw ((dets.find? (fun e => isClosingKey e.1)).map Prod.snd) := by
  induction dets with
  | nil => intro acc; simp [optOr_none_right]
  | cons e dets ih =>
      intro acc
      rw [List.foldl_cons, ih, derivedStep_raw]
      cases hr : acc.raw with
      | some r => simp [hr, optOr]
      | none =>
          cases hk : isClosingKey e.1 with
          | true =>
              simp only [hr, Option.isNone_none, Bool.true_and, hk, if_pos]
              rw [List.find?_cons_of_pos _ (by simpa using hk)]
              simp [optOr]
          | false =>
              simp only [hr, Option.isNone_none, Bool.true_and, hk, Bool.false_eq_true,
                if_neg]
              rw [List.find?_cons_of_neg _ (by simp [hk])]
              simp [optOr]

theorem derivedFields_raw (dets : List (PyStr × PyStr)) :
    (derivedFields dets).raw =
      (dets.find? (fun e => isClosingKey e.1)).map Prod.snd := by
  unfold derivedFields
  rw [derivedFold_raw]
  rfl

/-! ### Locating the pass-4 write produced by a label/value line pair -/

theorem dropAtSome {α : Type} :
    ∀ (l : List α) (j : Nat) (x : α), l.get? j = some x → l.drop j = x :: l.drop (j + 1) := by
  intro l
  induction l with
  | nil => intro j x h; simp at h
  | cons a l ih =>
      intro j x h
      cases j with
      | zero => simp_all
      | succ j =>
          simp only [List.get?_cons_succ] at h
          simpa using ih j x h

theorem scrape_raw_eq (soup : Soup) (url ts : PyStr) :
    (scrape_job_detail soup url ts).closing_date_raw =
      optOr (derivedFields (extract_key_value_details soup)).raw
        (fallbackClosingRaw soup) := rfl

theorem scrape_cd_eq (soup : Soup) (url ts : PyStr) :
    (scrape_job_detail soup url ts).closing_date =
      (match optOr (derivedFields (extract_key_value_details soup)).raw
          (fallbackClosingRaw soup) with
        | some r =>
            if r ≠ [] then (parse_closing_date r).map (fun d => dateIso d.1 d.2.1 d.2.2)
            else none
        | none => none) := rfl

theorem method4LineWrite_at (lines : List PyStr) (i : Nat)
    (h1 : lines.get? i = some (pstr "Closing Date"))
    (h2 : lines.get? (i + 1) = some (pstr "Jan 24, 2026")) :
    method4LineWrite lines i = some (pstr "Closing Date", pstr "Jan 24, 2026") := by
  unfold method4LineWrite
  rw [h1, dropAtSome _ _ _ h2]
  simp only [List.take_succ_cons, List.map_cons]
  rw [List.find?_cons_of_pos _ (by decide)]
  decide

theorem find?_filterMap_range (f : Nat → Option (PyStr × PyStr)) (q : PyStr → Bool)
    (n i : Nat) (target : PyStr × PyStr)
    (hi : i < n) (hfi : f i = some target) (hq : q target.1 = true)
    (hlt : ∀ j, j < i → ∀ e, f j = some e → q e.1 = false) :
    ((List.range n).filterMap f).find? (fun e => q e.1) = some target := by
  have hsplit : List.range n = List.range i ++ (List.range (n - i)).map (i + ·) := by
    conv_lhs => rw [show n = i + (n - i) by omega]
    exact List.range_add i (n - i)
  rw [hsplit, List.filterMap_append, findq_append]
  have h1 : ((List.range i).filterMap f).find? (fun e => q e.1) = none := by
    rw [List.find?_eq_none]
    intro e he
    obtain ⟨j, hj, hfj⟩ := List.mem_filterMap.mp he
    simp [hlt j (List.mem_range.mp hj) e hfj]
  rw [h1]
  have hni : n - i = (n - i - 1) + 1 := by omega
  rw [hni, List.range_succ_eq_map, List.map_cons]
  have hz : i + 0 = i := by omega
  rw [hz, List.filterMap_cons, hfi]
  rw [List.find?_cons_of_pos _ (by simpa using hq)]
  rfl

/-- Claim C6 (amended): for every detail markup whose flattened lines hold a
line exactly `Closing Date` immediately followed by `Jan 24, 2026`, PROVIDED
no earlier line-scan write and no structural-pass (1-3) write carries a
closing-date/deadline-synonym key, the record has
`closing_date_raw = "Jan 24, 2026"` and `closing_date = "2026-01-24"`.
The value flows through the details map (the exact label line is itself a
known label for the line-scan pass), not through the fallback patterns. -/
theorem scrape_closing_pattern (soup : Soup) (url ts : PyStr) (i : Nat)
    (h1 : (flatLines soup).get? i = some (pstr "Closing Date"))
    (h2 : (flatLines soup).get? (i + 1) = some (pstr "Jan 24, 2026"))
    (h3 : ∀ j, j < i → ∀ e, method4LineWrite (flatLines soup) j = some e →
      isClosingKey e.1 = false)
    (h4 : ∀ e, e ∈ method1Writes soup ++ method2Writes soup ++ method3Writes soup →
      isClosingKey e.1 = false) :
    (scrape_job_detail soup url ts).closing_date_raw = some (pstr "Jan 24, 2026") ∧
    (scrape_job_detail soup url ts).closing_date = some (pstr "2026-01-24") := by
  have hw4 : (method4Writes (flatLines soup)).find? (fun e => isClosingKey e.1) =
      some (pstr "Closing Date", pstr "Jan 24, 2026") := by
    unfold method4Writes
    refine find?_filterMap_range _ _ _ i _ ?_ (method4LineWrite_at _ i h1 h2) (by decide) h3
    exact List.get?_eq_some.mp h1 |>.1
  have hd3 : ∀ x ∈ runSetdefault (method3Writes soup)
      (runSetdefault (method2Writes soup) (runAssign (method1Writes soup) [])),
      isClosingKey x.1 = false := by
    intro x hx
    rcases mem_runSetdefault _ _ _ hx with hx1 | hx1
    · rcases mem_runSetdefault _ _ _ hx1 with hx2 | hx2
      · rcases mem_runAssign _ _ _ hx2 with hx3 | hx3
        · simp at hx3
        · obtain ⟨⟨k0, v0⟩, hk0, hk0e⟩ := List.mem_map.mp hx3
          have := h4 (k0, v0) (by simp [hk0])
          simpa [← hk0e] using this
      · exact h4 x (by simp [hx2])
    · exact h4 x (by simp [hx1])
  have hdets : (extract_key_value_details soup).find? (fun e => isClosingKey e.1) =
      some (pstr "Closing Date", pstr "Jan 24, 2026") := by
    unfold extract_key_value_details
    rw [find?_runSetdefault_keys _ _ _ hd3]
    exact hw4
  have hraw : (derivedFields (extract_key_value_details soup)).raw =
      some (pstr "Jan 24, 2026") := by
    rw [derivedFields_raw, hdets]
    rfl
  constructor
  · rw [scrape_raw_eq, hraw]
    rfl
  · rw [scrape_cd_eq, hraw]
    simp only [optOr]
    decide

/-- Claim C6 witness input: `c6WitnessDoc` satisfies every hypothesis of
`scrape_closing_pattern` at line index 0 and yields the claimed dates. -/
theorem scrape_closing_pattern_witness :
    (scrape_job_detail c6WitnessDoc (pstr "u") (pstr "t")).closing_date_raw =
      some (pstr "Jan 24, 2026") ∧
    (scrape_job_detail c6WitnessDoc (pstr "u") (pstr "t")).closing_date =
      some (pstr "2026-01-24") := by
  refine scrape_closing_pattern c6WitnessDoc (pstr "u") (pstr "t") 0
    (by decide) (by decide) ?_ ?_
  · intro j hj e hw
    exact absurd hj (by omega)
  · intro e he
    have hnil : method1Writes c6WitnessDoc ++ method2Writes c6WitnessDoc ++
        method3Writes c6WitnessDoc = ([] : List (PyStr × PyStr)) := by decide
    rw [hnil] at he
    exact absurd he (List.not_mem_nil e)

/-- Claim C6 counterexample to the unamended claim: in `c6Doc` the flattened
text holds the line `Closing Date` immediately followed by `Jan 24, 2026`,
and the structural passes 1-3 contribute no detail entries at all; yet an
earlier `Deadline:` line wins the derived-fields scan, so
`closing_date_raw` is `Feb 1, 2026` rather than `Jan 24, 2026`. -/
theorem scrape_closing_fallback_cex :
    (flatLines c6Doc).get? 1 = some (pstr "Closing Date") ∧
    (flatLines c6Doc).get? 2 = some (pstr "Jan 24, 2026") ∧
    method1Writes c6Doc = [] ∧ method2Writes c6Doc = [] ∧ method3Writes c6Doc = [] ∧
    (scrape_job_detail c6Doc (pstr "u") (pstr "t")).closing_date_raw =
      some (pstr "Feb 1, 2026") ∧
    (scrape_job_detail c6Doc (pstr "u") (pstr "t")).closing_date_raw ≠
      some (pstr "Jan 24, 2026") := by
  refine ⟨by decide, by decide, by decide, by decide, by decide, by decide, by decide⟩

/-- Claim C10: the `scraped_at` dataclass default is evaluated once at
module import, so two records constructed without an explicit `scraped_at`
at different creation times carry the identical module-load timestamp. -/
theorem jobRecordDefault_shared_stamp (m t1 t2 u1 u2 : PyStr) :
    (jobRecordDefault m t1 u1).scraped_at = (jobRecordDefault m t2 u2).scraped_at ∧
    (jobRecordDefault m t1 u1).scraped_at = m := ⟨rfl, rfl⟩

/-! ### CSV/JSON output agreement -/

/-- Claim C8 (amended): the `i`-th CSV row and `i`-th JSON array element
serialise the same record; every scalar field carries the same value (a JSON
`null` rendered as the empty CSV cell), and whenever `details` is present
the `details_json` column is exactly the JSON encoding of the inlined
`details` object.  (When `details` is `None` the two outputs genuinely
differ: see the counterexample.) -/
theorem save_outputs_agree (rs : List JobRecord) (i : Nat) (r : JobRecord)
    (hr : rs.get? i = some r) :
    (save_csv rs).get? i = some (csvRowOf r) ∧
    (save_json rs).get? i = some (jsonRecordOf r) ∧
    (∀ f ∈ scalarFields,
      lookupKV f (csvRowOf r) = (lookupJ f (jsonRecordOf r)).map jscalarCell) ∧
    (∀ d, r.details = some d →
      lookupKV (pstr "details_json") (csvRowOf r) =
        (lookupJ (pstr "details") (jsonRecordOf r)).map jdumps) := by
  refine ⟨?_, ?_, ?_, ?_⟩
  · unfold save_csv
    rw [List.get?_map, hr]
    rfl
  · unfold save_json
    rw [List.get?_map, hr]
    rfl
  · intro f hf
    obtain ⟨url, title, company, location, cd, cdr, au, desc, dets, sa⟩ := r
    simp only [scalarFields, List.mem_cons, List.not_mem_nil, or_false] at hf
    rcases hf with rfl | rfl | rfl | rfl | rfl | rfl | rfl | rfl | rfl
    · rfl
    · cases title <;> rfl
    · cases company <;> rfl
    · cases location <;> rfl
    · cases cd <;> rfl
    · cases cdr <;> rfl
    · cases au <;> rfl
    · rfl
    · cases desc <;> rfl
  · intro d hd
    have hL : lookupKV (pstr "details_json") (csvRowOf r) =
        some (jdumps (JVal.jobjs (r.details.getD []))) := rfl
    have hR : lookupJ (pstr "details") (jsonRecordOf r) =
        some (match r.details with | some d => JVal.jobjs d | none => JVal.jnull) := rfl
    rw [hL, hR, hd]
    rfl

/-- Claim C8 witness: the agreement at a concrete one-record list whose
record has a populated details map and an absent title. -/
theorem save_outputs_agree_witness :
    lookupKV (pstr "title") (csvRowOf c8WitnessRec) =
      (lookupJ (pstr "title") (jsonRecordOf c8WitnessRec)).map jscalarCell ∧
    lookupKV (pstr "details_json") (csvRowOf c8WitnessRec) =
      (lookupJ (pstr "details") (jsonRecordOf c8WitnessRec)).map jdumps :=
  ⟨(save_outputs_agree [c8WitnessRec] 0 c8WitnessRec rfl).2.2.1 (pstr "title") (by decide),
   (save_outputs_agree [c8WitnessRec] 0 c8WitnessRec rfl).2.2.2
     [(pstr "Location", pstr "Kabul")] rfl⟩

/-- Claim C8 counterexample: for a record whose `details` is `None`, the
JSON output preserves `null` while the CSV column encodes an empty object,
so the two outputs do not hold the same details value. -/
theorem save_outputs_details_none_cex :
    lookupKV (pstr "details_json") (csvRowOf c8Rec) = some (jdumps (JVal.jobjs [])) ∧
    lookupJ (pstr "details") (jsonRecordOf c8Rec) = some JVal.jnull ∧
    jdumps (JVal.jobjs []) ≠ jdumps JVal.jnull := by
  refine ⟨by decide, by decide, by decide⟩

/-! ### Resilient Navigator -/

/-- Claim C5 (amended): `goto_with_retry` returns success as soon as some
attempt's post-navigation text is challenge-free; when no attempt is clear,
it re-raises the navigation error of the FINAL attempt if that attempt
raised one, and otherwise returns failure without raising — even when
earlier attempts raised errors. -/
theorem goto_with_retry_spec (outs : List NavOutcome) :
    goto_with_retry outs =
      (if hasClearAttempt outs then Except.ok true
       else
         match outs.getLast? with
         | some (.err e) => Except.error e
         | _ => Except.ok false) := by
  induction outs with
  | nil => rfl
  | cons o rest ih =>
      cases rest with
      | nil =>
          cases o with
          | err e => rfl
          | loaded t =>
              by_cases h : challengeClear t = true
              · simp [goto_with_retry, hasClearAttempt, h]
              · simp only [Bool.not_eq_true] at h
                simp [goto_with_retry, hasClearAttempt, h]
      | cons o2 rest2 =>
          cases o with
          | err e =>
              have hg : goto_with_retry (NavOutcome.err e :: o2 :: rest2) =
                  goto_with_retry (o2 :: rest2) := rfl
              have hh : hasClearAttempt (NavOutcome.err e :: o2 :: rest2) =
                  hasClearAttempt (o2 :: rest2) := by
                simp [hasClearAttempt]
              rw [hg, ih, hh, List.getLast?_cons_cons]
          | loaded t =>
              by_cases h : challengeClear t = true
              · have hg : goto_with_retry (NavOutcome.loaded t :: o2 :: rest2) =
                    Except.ok true := by
                  simp [goto_with_retry, h]
                have hh : hasClearAttempt (NavOutcome.loaded t :: o2 :: rest2) = true := by
                  simp [hasClearAttempt, h]
                rw [hg, hh]
                rfl
              · have hg : goto_with_retry (NavOutcome.loaded t :: o2 :: rest2) =
                    goto_with_retry (o2 :: rest2) := by
                  simp only [Bool.not_eq_true] at h
                  simp [goto_with_retry, h]
                have hh : hasClearAttempt (NavOutcome.loaded t :: o2 :: rest2) =
                    hasClearAttempt (o2 :: rest2) := by
                  simp only [Bool.not_eq_true] at h
                  simp [hasClearAttempt, h]
                rw [hg, ih, hh, List.getLast?_cons_cons]

/-- Claim C5 counterexample: with a first attempt raising error 7 and a
final attempt that loads but remains challenged, `goto_with_retry` returns
failure and does not re-raise the navigation error that occurred. -/
theorem goto_with_retry_no_reraise_cex :
    goto_with_retry c5Cex = Except.ok false ∧
    hasClearAttempt c5Cex = false ∧
    goto_with_retry c5Cex ≠ Except.error 7 := by
  refine ⟨rfl, rfl, ?_⟩
  intro h
  rw [show goto_with_retry c5Cex = Except.ok false from rfl] at h
  exact Except.noConfusion h

/-! ### Filter-UI Driver -/

/-- Claim C3 (amended): a missing Categories control (including the retry
after re-opening Filters) and an empty option-scan result are non-fatal
no-ops returning the tracking set unchanged; but a located control whose
dropdown search input (or the input's bounding box) cannot be found RAISES
a `RuntimeError` rather than completing as a no-op. -/
theorem select_one_category_miss_behavior (env : UIEnv) (t : PyStr) (s : List PyStr) :
    (env.ctrlFound = false → env.ctrlRetryFound = false →
      select_one_category env t s = Except.ok s) ∧
    ((env.ctrlFound || env.ctrlRetryFound) = true → env.inputFound = false →
      select_one_category env t s = Except.error (pstr "Could not find Categories input.")) ∧
    ((env.ctrlFound || env.ctrlRetryFound) = true → env.inputFound = true →
      env.inputBox = none →
      select_one_category env t s = Except.error (pstr "Could not get input bounding box")) ∧
    (∀ x y, (env.ctrlFound || env.ctrlRetryFound) = true → env.inputFound = true →
      env.inputBox = some (x, y) → selectOptions env x y t s = [] →
      select_one_category env t s = Except.ok s) := by
  refine ⟨?_, ?_, ?_, ?_⟩
  · intro h1 h2
    simp [select_one_category, h1, h2]
  · intro h1 h2
    simp [select_one_category, h1, h2]
  · intro h1 h2 h3
    simp [select_one_category, h1, h2, h3]
  · intro x y h1 h2 h3 h4
    simp [select_one_category, h1, h2, h3, h4, clickLoop]

/-- Claim C3 counterexample: an environment whose Categories control is
found but whose dropdown search input never appears makes
`select_one_category` raise instead of completing as a no-op. -/
theorem select_one_category_raises_cex :
    select_one_category c3Env (pstr "data") [] =
      Except.error (pstr "Could not find Categories input.") := rfl

/-- Claim C3 witness: the control-miss no-op and the no-options no-op at
concrete environments. -/
theorem select_one_category_miss_witness :
    select_one_category c3NoCtrlEnv (pstr "data") [] = Except.ok [] ∧
    select_one_category c3NoOptsEnv (pstr "data") [pstr "x"] = Except.ok [pstr "x"] := by
  constructor
  · exact (select_one_category_miss_behavior c3NoCtrlEnv (pstr "data") []).1 rfl rfl
  · exact (select_one_category_miss_behavior c3NoOptsEnv (pstr "data") [pstr "x"]).2.2.2
      100 200 rfl rfl rfl (by decide)

theorem mem_insertSet (s : List PyStr) (x l : PyStr) (h : l ∈ insertSet s x) :
    l ∈ s ∨ l = x := by
  unfold insertSet at h
  split at h
  · left; exact h
  · rcases List.mem_append.mp h with h' | h'
    · left; exact h'
    · right; simpa using h'

theorem clickLoop_sel_sub (env : ClickEnv) :
    ∀ (opts : List FoundOpt) (i : Nat) (st : SelState) (l : PyStr),
      l ∈ (clickLoop env opts i st).sel →
      l ∈ st.sel ∨ l ∈ opts.map FoundOpt.textLower := by
  intro opts
  induction opts with
  | nil => intro i st l h; left; exact h
  | cons opt rest ih =>
      intro i st l h
      simp only [clickLoop] at h
      split_ifs at h with h1 h2 h3 h4 h5 h6
      · left; exact h
      · rcases ih _ _ l h with h' | h'
        · rcases mem_insertSet _ _ _ h' with h'' | h''
          · left; exact h''
          · right; simp [h'']
        · right; simp [h']
      · rcases ih _ _ l h with h' | h'
        · left; exact h'
        · right; simp [h']
      · left; exact h
      · rcases ih _ _ l h with h' | h'
        · left; exact h'
        · right; simp [h']
      · rcases mem_insertSet _ _ _ h with h' | h'
        · left; exact h'
        · right; simp [h']
      · rcases ih _ _ l h with h' | h'
        · rcases mem_insertSet _ _ _ h' with h'' | h''
          · left; exact h''
          · right; simp [h'']
        · right; simp [h']

theorem dedupOptions_sub (s : List PyStr) (opts : List FoundOpt) (o : FoundOpt)
    (h : o ∈ dedupOptions s opts) : o ∈ opts := by
  have haux : ∀ (opts : List FoundOpt) (acc : List FoundOpt × List PyStr),
      o ∈ (opts.foldl
        (fun acc opt =>
          if !(acc.2.contains opt.textLower) && !(s.contains opt.textLower)
          then (acc.1 ++ [opt], acc.2 ++ [opt.textLower])
          else acc)
        acc).1 → o ∈ acc.1 ∨ o ∈ opts := by
    intro opts
    induction opts with
    | nil => intro acc h'; left; exact h'
    | cons opt rest ih =>
        intro acc h'
        rw [List.foldl_cons] at h'
        rcases ih _ h' with h'' | h''
        · split at h''
          · rcases List.mem_append.mp h'' with h3 | h3
            · left; exact h3
            · right; simp only [List.mem_singleton] at h3; simp [h3]
          · left; exact h''
        · right; exact List.mem_cons_of_mem _ h''
  have := haux opts ([], [])
  unfold dedupOptions at h
  rcases this h with h' | h'
  · simp at h'
  · exact h'

theorem findAllOptions_mem (x y innerH : Int) (term : PyStr) (s : List PyStr)
    (cands : List OptCand) (o : FoundOpt)
    (h : o ∈ findAllOptions x y innerH term s cands) :
    containsSub o.textLower term = true ∧
    containsSub o.textLower (pstr "architect") = false := by
  simp only [findAllOptions] at h
  split at h <;>
  · obtain ⟨c, hc, hco⟩ := List.mem_map.mp h
    have hk := (List.mem_filter.mp hc).2
    first
      | (unfold fallbackKeep textEligible at hk)
      | (unfold primaryKeep textEligible at hk)
    simp only [Bool.and_eq_true, Bool.not_eq_true'] at hk
    subst hco
    exact ⟨hk.2, hk.1.2.1⟩

/-- Claim C7: among the geometry-eligible, not-excluded, not-yet-tracked
candidates, the primary scan keeps exactly those whose lower-cased trimmed
text contains the lower-cased stripped query; every option either scan
returns contains the query and never contains `architect`; and every label
in the returned tracking set either was already tracked or is free of the
excluded keyword — an `architect` option is never selected. -/
theorem category_matching (env : UIEnv) (t : PyStr) (s : List PyStr) (x y : Int) :
    (∀ c ∈ env.cands, primaryGeom x y env.innerHeight c = true →
      textEligible s c = true →
      (c ∈ env.cands.filter (primaryKeep x y env.innerHeight (jsNeedle t) s) ↔
        containsSub (candTextLower c) (jsNeedle t) = true)) ∧
    (∀ o ∈ findAllOptions x y env.innerHeight (jsNeedle t) s env.cands,
      containsSub o.textLower (jsNeedle t) = true ∧
      containsSub o.textLower (pstr "architect") = false) ∧
    (∀ s', select_one_category env t s = Except.ok s' →
      ∀ l ∈ s', l ∈ s ∨ containsSub l (pstr "architect") = false) := by
  refine ⟨?_, ?_, ?_⟩
  · intro c hc hgeom helig
    constructor
    · intro hmem
      have hk := (List.mem_filter.mp hmem).2
      unfold primaryKeep at hk
      simp only [Bool.and_eq_true] at hk
      exact hk.2
    · intro hsub
      refine List.mem_filter.mpr ⟨hc, ?_⟩
      unfold primaryKeep
      simp [hgeom, helig, hsub]
  · intro o ho
    exact findAllOptions_mem _ _ _ _ _ _ o ho
  · intro s' hok l hl
    unfold select_one_category at hok
    split at hok
    · simp only [Except.ok.injEq] at hok
      subst hok
      left; exact hl
    · split at hok
      · exact Except.noConfusion hok
      · split at hok
        · exact Except.noConfusion hok
        · next x0 y0 heq =>
            simp only [Except.ok.injEq] at hok
            subst hok
            rcases clickLoop_sel_sub env.click _ 0 _ l hl with h' | h'
            · left; exact h'
            · obtain ⟨o, ho, hol⟩ := List.mem_map.mp h'
              have ho' := dedupOptions_sub s _ o ho
              have := (findAllOptions_mem _ _ _ _ _ _ o ho').2
              right
              rw [← hol]
              exact this

/-- Claim C7 witness: in the concrete environment `c7Env` with query `Data`,
the `Data Science` candidate is kept by the primary scan, and the returned
tracking-set label `data science` is architect-free. -/
theorem category_matching_witness :
    c7DataOpt ∈ c7Env.cands.filter
      (primaryKeep 100 200 c7Env.innerHeight (jsNeedle (pstr "Data")) []) ∧
    (pstr "data science" ∈ ([] : List PyStr) ∨
      containsSub (pstr "data science") (pstr "architect") = false) := by
  have h := category_matching c7Env (pstr "Data") [] 100 200
  constructor
  · exact (h.1 c7DataOpt (by decide) (by decide) (by decide)).mpr (by decide)
  · exact h.2.2 [pstr "data science"] rfl (pstr "data science") (by decide)

/-! ### Harvest driver -/

/-- Claim C2: the authoritative page count is the maximum of the
ceiling-divided total (page size 10, `(N + 9) / 10` being exactly the least
`m` with `N ≤ 10 * m`) and the UI-detected maximum pager number, and the
harvesting loop visits exactly pages `1 .. computeMaxPages N D` in order. -/
theorem page_count_spec (N D : Nat) (f : Nat → List PyStr) (h : 0 < N) :
    computeMaxPages N D = max ((N + 9) / 10) D ∧
    N ≤ 10 * ((N + 9) / 10) ∧
    (∀ m, N ≤ 10 * m → (N + 9) / 10 ≤ m) ∧
    (runMain N D f).visitedPages = pythonRange 1 (computeMaxPages N D + 1) ∧
    (runMain N D f).visitedPages.length = computeMaxPages N D ∧
    (∀ j, j < computeMaxPages N D → (runMain N D f).visitedPages.get? j = some (1 + j)) := by
  have hN : ¬ (N = 0) := by omega
  have hvis : (runMain N D f).visitedPages = pythonRange 1 (computeMaxPages N D + 1) := by
    simp [runMain, hN]
  refine ⟨?_, by omega, fun m hm => by omega, hvis, ?_, ?_⟩
  · simp only [computeMaxPages]
    have h109 : N + 10 - 1 = N + 9 := by omega
    rw [h109]
    split <;> omega
  · rw [hvis]
    simp [pythonRange]
  · intro j hj
    rw [hvis]
    simp only [pythonRange, Nat.add_sub_cancel, List.get?_map]
    rw [List.get?_range (by omega)]
    rfl

/-- Claim C2 witness: 23 available results at page size 10 with no larger
pager number give page count 3 and visits to pages 1, 2, 3. -/
theorem page_count_spec_witness :
    computeMaxPages 23 3 = 3 ∧
    (runMain 23 3 (fun _ => [])).visitedPages = [1, 2, 3] := by
  have h := page_count_spec 23 3 (fun _ => []) (by decide)
  refine ⟨?_, ?_⟩
  · rw [h.1]
    decide
  · rw [h.2.2.2.1]
    decide

/-- Claim C4: a zero `Available Jobs` count terminates the run at once with
the no-results report: no page of the harvesting loop is visited, the link
set is empty, and no detail page is visited. -/
theorem zero_results_no_harvest (D : Nat) (f : Nat → List PyStr) :
    runMain 0 D f =
      { noResults := true, visitedPages := [], harvestedLinks := [],
        detailVisited := [] } := rfl

end JobsAf
